import Mathlib

/-!
Shallow embedding of the authentication core of the `vritti-api-nexus`
repository: the token lifecycle (TokenService, `src/modules/auth/services/
token.service.ts`), the signup-attempt state machine (SignupAttemptService,
`src/modules/auth/services/signup-attempt.service.ts`), the session
orchestrator (`AuthService`), and the Prisma/Postgres schema (the SQL
migration defining `users`, `refresh_tokens`, `signup_attempts` with the
unique indexes `users_email_key`, `refresh_tokens_token_key`,
`signup_attempts_email_status_key`).

Times are milliseconds since epoch, as `Int` (JavaScript `Date.getTime()`).
JWT signing is modelled injectively: a signed token is the structure holding
its payload, the secret it was signed with, its issue time and its lifetime;
verification succeeds exactly when the supplied secret matches and the token
is unexpired, mirroring `jsonwebtoken`'s sign/verify contract.

The Credential Store is modelled as lists of rows; each write primitive
mirrors the corresponding Prisma call, including the schema's uniqueness
constraints (an insert or update whose result would violate a unique index
fails, as the Postgres statement does) and Prisma's P2025 error on
`update` of a missing row.  Store faults (connection loss etc.) are injected
through an explicit `fault` flag on the primitives where a claim concerns
failure handling.
-/

deriving instance DecidableEq for Except

/-- JavaScript `String.prototype.toLowerCase()` (ASCII range, as used on
email addresses here): lower-case every character.  Defined over the
character list so it evaluates by kernel reduction. -/
def lowerStr (s : String) : String := ⟨s.data.map Char.toLower⟩

/-- Milliseconds in a day. -/
def msPerDay : Int := 86400000

/-- Milliseconds in an hour. -/
def msPerHour : Int := 3600000

/-- Time in milliseconds since epoch (JS `Date.getTime()` / `Date.now()`). -/
abbrev Time := Int

/-- `UserStatus` enum of the Prisma schema. -/
inductive UserStatus
  | ACTIVE | INACTIVE | SUSPENDED | DELETED
deriving DecidableEq, Repr

/-- `AttemptStatus` enum of the Prisma schema. -/
inductive AttemptStatus
  | IN_PROGRESS | COMPLETED | EXPIRED | ABANDONED
deriving DecidableEq, Repr

/-- JWT payloads: `AccessTokenPayload`, `RefreshTokenPayload`,
`SignupTokenPayload` from token.service.ts.  The `type` discriminator field
is the constructor. -/
inductive Payload
  | access (sub : String) (email : String)
  | refresh (sub : String) (tokenId : String)
  | signup (attemptId : String) (email : String) (currentStep : String)
deriving DecidableEq, Repr

/-- A signed JWT: payload, signing secret, issue time, lifetime in ms.
Signing is injective (the encoded string determines all four), so the token
is identified with this data. -/
structure Jwt where
  payload : Payload
  secret : String
  iat : Time
  lifetimeMs : Int
deriving DecidableEq, Repr

/-- `jsonwebtoken.verify`: succeeds iff the secret matches and the token is
not expired at `now`, returning the payload. -/
def Jwt.verify (t : Jwt) (secret : String) (now : Time) : Except Unit Payload :=
  if t.secret = secret ∧ now < t.iat + t.lifetimeMs then .ok t.payload else .error ()

/-- Configuration surface read through ConfigService: the three distinct
secret env vars (whose values are not forced to differ), expiries and the
rotation threshold. -/
structure Config where
  accessSecret : String
  refreshSecret : String
  signupSecret : String
  accessExpirySec : Int
  refreshExpiryDays : Int
  signupExpiryMs : Int
  rotationDays : Int
deriving DecidableEq, Repr

/-- Row of the `users` table. -/
structure UserRec where
  id : String
  email : String
  firstName : String
  lastName : String
  passwordHash : String
  emailVerified : Bool
  status : UserStatus
deriving DecidableEq, Repr

/-- Row of the `refresh_tokens` table. -/
structure RefreshTokenRec where
  id : String
  token : Jwt
  userId : String
  revoked : Bool
  expiresAt : Time
  createdAt : Time
deriving DecidableEq, Repr

/-- Row of the `signup_attempts` table. -/
structure SignupAttemptRec where
  id : String
  email : String
  firstName : Option String
  lastName : Option String
  passwordHash : Option String
  emailVerified : Bool
  phoneVerified : Bool
  mfaEnabled : Bool
  currentStep : String
  completedSteps : List String
  status : AttemptStatus
  attemptCount : Int
  createdAt : Time
  updatedAt : Time
  expiresAt : Time
  completedAt : Option Time
deriving DecidableEq, Repr

/-- The Credential Store state: the three tables. -/
structure DB where
  users : List UserRec
  refreshTokens : List RefreshTokenRec
  signupAttempts : List SignupAttemptRec
deriving DecidableEq, Repr

/-- The empty store. -/
def emptyDB : DB := ⟨[], [], []⟩

/-- Error classes surfaced by the services: `UnauthorizedException`,
`InternalServerErrorException`, `ConflictException`. -/
inductive ServiceErr
  | unauthorized | internal | conflict
deriving DecidableEq, Repr

/-- Writes committed to the store, in order, by an operation (used to state
the revoke-then-issue ordering of rotation). -/
inductive StoreOp
  | revokeToken (tokenId : String)
  | insertToken (rec : RefreshTokenRec)
deriving DecidableEq, Repr

/-- prisma.user.findUnique by email. -/
def findUserByEmail (db : DB) (email : String) : Option UserRec :=
  db.users.find? (fun u => u.email = email)

/-- prisma.user.findUnique by id (the `include: \x7b user: true \x7d` join). -/
def findUser (db : DB) (userId : String) : Option UserRec :=
  db.users.find? (fun u => u.id = userId)

/-- prisma.refreshToken.findUnique by id. -/
def findRefreshToken (db : DB) (tokenId : String) : Option RefreshTokenRec :=
  db.refreshTokens.find? (fun r => r.id = tokenId)

/-- prisma.refreshToken.create: inserts the row; fails if the primary key
`id` or the unique `token` column collides with an existing row. -/
def refreshTokenInsert (db : DB) (rec : RefreshTokenRec) : Except Unit DB :=
  if db.refreshTokens.any (fun r => r.id = rec.id ∨ r.token = rec.token) then
    .error ()
  else
    .ok { db with refreshTokens := rec :: db.refreshTokens }

/-- prisma.refreshToken.update where id, data revoked = true: fails with
P2025 when no row has that id (or on an injected store fault); otherwise
flips `revoked` on the matching row. -/
def refreshTokenSetRevoked (db : DB) (tokenId : String) (fault : Bool) : Except Unit DB :=
  if fault then .error ()
  else if db.refreshTokens.any (fun r => r.id = tokenId) then
    .ok { db with refreshTokens :=
      db.refreshTokens.map (fun r => if r.id = tokenId then { r with revoked := true } else r) }
  else .error ()

/-- prisma.refreshToken.updateMany where userId and revoked = false, data
revoked = true (no unique index involves `revoked`, so only an injected
fault can fail it). -/
def refreshTokenRevokeAllForUser (db : DB) (userId : String) (fault : Bool) : Except Unit DB :=
  if fault then .error ()
  else
    .ok { db with refreshTokens :=
      db.refreshTokens.map (fun r =>
        if r.userId = userId ∧ r.revoked = false then { r with revoked := true } else r) }

/-- TokenService.generateAccessToken: pure claim-build and sign. -/
def generateAccessToken (cfg : Config) (user : UserRec) (now : Time) : Jwt :=
  { payload := .access user.id user.email
    secret := cfg.accessSecret
    iat := now
    lifetimeMs := cfg.accessExpirySec * 1000 }

/-- The refresh JWT built and signed inside
TokenService.generateRefreshToken. -/
def refreshJwt (cfg : Config) (userId : String) (tokenId : String) (now : Time) : Jwt :=
  { payload := .refresh userId tokenId
    secret := cfg.refreshSecret
    iat := now
    lifetimeMs := cfg.refreshExpiryDays * msPerDay }

/-- The refresh-token row persisted by TokenService.generateRefreshToken
(`created_at` defaults to the current timestamp in the schema). -/
def freshRefreshRec (cfg : Config) (userId : String) (newTokenId : String) (now : Time) :
    RefreshTokenRec :=
  { id := newTokenId
    token := refreshJwt cfg userId newTokenId now
    userId := userId
    revoked := false
    expiresAt := now + cfg.refreshExpiryDays * msPerDay
    createdAt := now }

/-- TokenService.generateRefreshToken: builds a fresh correlation id
(`crypto.randomUUID()`, passed in as `newTokenId`), signs the refresh JWT,
persists the row, and only then returns; any store failure is caught and
rethrown as InternalServerErrorException.  Returns the result, the store
after the call, and the trace of committed writes. -/
def generateRefreshToken (cfg : Config) (db : DB) (userId : String) (newTokenId : String)
    (now : Time) : Except ServiceErr (Jwt × Time × String) × DB × List StoreOp :=
  let row := freshRefreshRec cfg userId newTokenId now
  match refreshTokenInsert db row with
  | .ok db' => (.ok (row.token, row.expiresAt, newTokenId), db', [.insertToken row])
  | .error _ => (.error .internal, db, [])

/-- TokenService.generateSignupToken: pure claim-build and sign. -/
def generateSignupToken (cfg : Config) (attemptId : String) (email : String)
    (currentStep : String) (now : Time) : Jwt :=
  { payload := .signup attemptId email currentStep
    secret := cfg.signupSecret
    iat := now
    lifetimeMs := cfg.signupExpiryMs }

/-- TokenService.verifyAccessToken: verify with the ACCESS secret, then
check the `type` discriminator; every failure collapses to
UnauthorizedException. -/
def verifyAccessToken (cfg : Config) (t : Jwt) (now : Time) :
    Except ServiceErr (String × String) :=
  match t.verify cfg.accessSecret now with
  | .error _ => .error .unauthorized
  | .ok p =>
    match p with
    | .access sub email => .ok (sub, email)
    | _ => .error .unauthorized

/-- TokenService.verifyRefreshToken: verify with the REFRESH secret, then
check the `type` discriminator; every failure collapses to
UnauthorizedException. -/
def verifyRefreshToken (cfg : Config) (t : Jwt) (now : Time) :
    Except ServiceErr (String × String) :=
  match t.verify cfg.refreshSecret now with
  | .error _ => .error .unauthorized
  | .ok p =>
    match p with
    | .refresh sub tokenId => .ok (sub, tokenId)
    | _ => .error .unauthorized

/-- TokenService.verifySignupToken: verify with the SIGNUP secret, then
check the `type` discriminator; every failure collapses to
UnauthorizedException. -/
def verifySignupToken (cfg : Config) (t : Jwt) (now : Time) :
    Except ServiceErr (String × String × String) :=
  match t.verify cfg.signupSecret now with
  | .error _ => .error .unauthorized
  | .ok p =>
    match p with
    | .signup attemptId email currentStep => .ok (attemptId, email, currentStep)
    | _ => .error .unauthorized

/-- TokenService.shouldRotateRefreshToken: false when the row is missing;
otherwise true iff `(now - createdAt) / msPerDay >= rotationDays`, i.e.
`now - createdAt >= rotationDays * msPerDay` (the source's float division by
a positive constant compared to an integer threshold is exact at and around
the boundary). -/
def shouldRotateRefreshToken (cfg : Config) (db : DB) (tokenId : String) (now : Time) : Bool :=
  match findRefreshToken db tokenId with
  | none => false
  | some r => decide (cfg.rotationDays * msPerDay ≤ now - r.createdAt)

/-- TokenService.rotateRefreshToken: revoke the old row first, then issue a
brand-new refresh token for the same user; failures collapse to
InternalServerErrorException, but writes committed before the failure
persist in the returned store. -/
def rotateRefreshToken (cfg : Config) (db : DB) (oldTokenId : String) (userId : String)
    (newTokenId : String) (now : Time) :
    Except ServiceErr (Jwt × Time) × DB × List StoreOp :=
  match refreshTokenSetRevoked db oldTokenId false with
  | .error _ => (.error .internal, db, [])
  | .ok db1 =>
    match generateRefreshToken cfg db1 userId newTokenId now with
    | (.ok (token, expiresAt, _), db2, trace) =>
      (.ok (token, expiresAt), db2, .revokeToken oldTokenId :: trace)
    | (.error _, db2, trace) => (.error .internal, db2, .revokeToken oldTokenId :: trace)

/-- TokenService.revokeRefreshToken: sets revoked = true on the row; every
store failure (missing row, fault) is caught and only logged — the caller
always sees a successful `void` return. -/
def revokeRefreshToken (db : DB) (tokenId : String) (fault : Bool) :
    Except ServiceErr Unit × DB :=
  match refreshTokenSetRevoked db tokenId fault with
  | .ok db' => (.ok (), db')
  | .error _ => (.ok (), db)

/-- TokenService.revokeAllUserRefreshTokens: sets revoked = true on all
non-revoked rows of the user; every store failure is caught and only
logged — the caller always sees a successful `void` return. -/
def revokeAllUserRefreshTokens (db : DB) (userId : String) (fault : Bool) :
    Except ServiceErr Unit × DB :=
  match refreshTokenRevokeAllForUser db userId fault with
  | .ok db' => (.ok (), db')
  | .error _ => (.ok (), db)

/-- TokenService.getAccessTokenExpiryInSeconds. -/
def getAccessTokenExpiryInSeconds (cfg : Config) : Int :=
  cfg.accessExpirySec

/-- Key of the unique index `signup_attempts_email_status_key` on
("email", "status"). -/
def saKey (r : SignupAttemptRec) : String × AttemptStatus :=
  (r.email, r.status)

/-- prisma.signupAttempt.create: inserts the row; fails if the primary key
or the unique (email, status) index collides with an existing row. -/
def signupAttemptInsert (db : DB) (rec : SignupAttemptRec) : Except Unit DB :=
  if db.signupAttempts.any (fun r => r.id = rec.id ∨ saKey r = saKey rec) then
    .error ()
  else
    .ok { db with signupAttempts := rec :: db.signupAttempts }

/-- prisma.signupAttempt.update where id: fails with P2025 when no row has
that id; applies the data object `f` to the matching row; fails (and
changes nothing) if the resulting table would violate the unique
(email, status) index. -/
def signupAttemptUpdate (db : DB) (attemptId : String) (f : SignupAttemptRec → SignupAttemptRec) :
    Except Unit (SignupAttemptRec × DB) :=
  match db.signupAttempts.find? (fun r => r.id = attemptId) with
  | none => .error ()
  | some target =>
    let rows := db.signupAttempts.map (fun r => if r.id = attemptId then f r else r)
    if (rows.map saKey).Nodup then
      .ok (f target, { db with signupAttempts := rows })
    else
      .error ()

/-- prisma.signupAttempt.updateMany: applies `f` to every row matching `p`,
returning the number of matching rows; the statement fails atomically (and
changes nothing) on an injected fault or if the resulting table would
violate the unique (email, status) index. -/
def signupAttemptUpdateMany (db : DB) (p : SignupAttemptRec → Bool)
    (f : SignupAttemptRec → SignupAttemptRec) (fault : Bool) : Except Unit (Nat × DB) :=
  if fault then .error ()
  else
    let rows := db.signupAttempts.map (fun r => if p r then f r else r)
    if (rows.map saKey).Nodup then
      .ok ((db.signupAttempts.filter p).length, { db with signupAttempts := rows })
    else
      .error ()

/-- SignupAttemptService.checkUserExists. -/
def checkUserExists (db : DB) (email : String) : Bool :=
  (findUserByEmail db (lowerStr email)).isSome

/-- SignupAttemptService.findInProgressAttempt: findFirst where email
(lower-cased), status IN_PROGRESS, expiresAt > now, ordered by createdAt
descending — i.e. the latest-created matching row. -/
def findInProgressAttempt (db : DB) (email : String) (now : Time) : Option SignupAttemptRec :=
  let hits := db.signupAttempts.filter
    (fun r => r.email = lowerStr email ∧ r.status = .IN_PROGRESS ∧ now < r.expiresAt)
  hits.foldl
    (fun best r =>
      match best with
      | none => some r
      | some b => if b.createdAt < r.createdAt then some r else some b)
    none

/-- The row inserted by SignupAttemptService.createSignupAttempt: email
lower-cased, hashed password, first step `email_verification`, status
IN_PROGRESS, expiry two hours out, and the schema's column defaults. -/
def freshAttemptRec (email firstName lastName passwordHash newId : String) (now : Time) :
    SignupAttemptRec :=
  { id := newId
    email := lowerStr email
    firstName := some firstName
    lastName := some lastName
    passwordHash := some passwordHash
    emailVerified := false
    phoneVerified := false
    mfaEnabled := false
    currentStep := "email_verification"
    completedSteps := []
    status := .IN_PROGRESS
    attemptCount := 1
    createdAt := now
    updatedAt := now
    expiresAt := now + 2 * msPerHour
    completedAt := none }

/-- SignupAttemptService.createSignupAttempt: pre-checks only that no User
holds the email (ConflictException); hashes the password via the external
bcrypt collaborator `hash`; inserts the new IN_PROGRESS row.  A store
failure of the insert — including a collision with an existing
(email, IN_PROGRESS) row on the unique index — is caught and rethrown as
InternalServerErrorException, not as a conflict. -/
def createSignupAttempt (db : DB) (hash : String → String)
    (email firstName lastName password newId : String) (now : Time) :
    Except ServiceErr SignupAttemptRec × DB :=
  if checkUserExists db email then (.error .conflict, db)
  else
    let row := freshAttemptRec email firstName lastName (hash password) newId now
    match signupAttemptInsert db row with
    | .ok db' => (.ok row, db')
    | .error _ => (.error .internal, db)

/-- SignupAttemptService.resumeSignupAttempt: update where id with data
`attemptCount = existing.attemptCount + 1, updatedAt = now`; store failures
are rethrown as InternalServerErrorException. -/
def resumeSignupAttempt (db : DB) (existing : SignupAttemptRec) (now : Time) :
    Except ServiceErr SignupAttemptRec × DB :=
  match signupAttemptUpdate db existing.id
      (fun r => { r with attemptCount := existing.attemptCount + 1, updatedAt := now }) with
  | .ok (r, db') => (.ok r, db')
  | .error _ => (.error .internal, db)

/-- JS truthiness of the optional `completedStep` argument (an empty string
is falsy). -/
def stepTruthy : Option String → Bool
  | none => false
  | some s => s ≠ ""

/-- SignupAttemptService.updateSignupStep: sets currentStep and updatedAt;
when a truthy `completedStep` is given, reads the row and appends the step
to completedSteps only if not already present (set semantics, insertion
order preserved). -/
def updateSignupStep (db : DB) (attemptId newStep : String) (completedStep : Option String)
    (now : Time) : Except ServiceErr SignupAttemptRec × DB :=
  let addStep : SignupAttemptRec → List String := fun r =>
    match completedStep with
    | some cs =>
      if stepTruthy (some cs) ∧ ¬ r.completedSteps.contains cs then
        r.completedSteps ++ [cs]
      else r.completedSteps
    | none => r.completedSteps
  match signupAttemptUpdate db attemptId
      (fun r => { r with currentStep := newStep, updatedAt := now,
                         completedSteps := addStep r }) with
  | .ok (r, db') => (.ok r, db')
  | .error _ => (.error .internal, db)

/-- SignupAttemptService.completeSignupAttempt: update where id with data
`status = COMPLETED, completedAt = now`; store failures (including a
unique-index collision with an existing (email, COMPLETED) row) are
rethrown as InternalServerErrorException. -/
def completeSignupAttempt (db : DB) (attemptId : String) (now : Time) :
    Except ServiceErr Unit × DB :=
  match signupAttemptUpdate db attemptId
      (fun r => { r with status := .COMPLETED, completedAt := some now }) with
  | .ok (_, db') => (.ok (), db')
  | .error _ => (.error .internal, db)

/-- SignupAttemptService.markExpiredAttempts: updateMany transitioning all
IN_PROGRESS rows with expiresAt < now to EXPIRED, returning the count;
every store failure is caught and `0` is returned, indistinguishable from a
sweep that matched no rows. -/
def markExpiredAttempts (db : DB) (now : Time) (fault : Bool) : Nat × DB :=
  match signupAttemptUpdateMany db
      (fun r => r.status = .IN_PROGRESS ∧ r.expiresAt < now)
      (fun r => { r with status := .EXPIRED }) fault with
  | .ok (n, db') => (n, db')
  | .error _ => (0, db)

/-- Outcomes of AuthService.refreshApplication, one constructor per
response branch of the source. -/
inductive RefreshOutcome
  | noSession
  | invalidSession
  | revokedSession
  | expiredSession
  | inactiveAccount
  | internalError
  | success (accessToken : Jwt) (user : UserRec) (expiresInSec : Int)
      (newRefreshToken : Option Jwt)
deriving DecidableEq, Repr

/-- AuthService.refreshApplication: the session-refresh pipeline.  The
final catch turns an UnauthorizedException from verification into the
invalid-session outcome and anything else into the generic internal-error
outcome; store writes committed before a late failure (rotation's revoke)
persist. -/
def refreshApplication (cfg : Config) (db : DB) (refreshToken : Option Jwt) (now : Time)
    (newTokenId : String) : RefreshOutcome × DB :=
  match refreshToken with
  | none => (.noSession, db)
  | some tok =>
    match verifyRefreshToken cfg tok now with
    | .error _ => (.invalidSession, db)
    | .ok (_, tokenId) =>
      match findRefreshToken db tokenId with
      | none => (.invalidSession, db)
      | some tokenRecord =>
        if tokenRecord.revoked then (.revokedSession, db)
        else if tokenRecord.expiresAt < now then (.expiredSession, db)
        else
          match findUser db tokenRecord.userId with
          | none => (.internalError, db)
          | some user =>
            if user.status ≠ .ACTIVE then (.inactiveAccount, db)
            else
              let accessToken := generateAccessToken cfg user now
              let expiresIn := getAccessTokenExpiryInSeconds cfg
              if shouldRotateRefreshToken cfg db tokenId now then
                match rotateRefreshToken cfg db tokenId user.id newTokenId now with
                | (.ok (newTok, _), db', _) =>
                  (.success accessToken user expiresIn (some newTok), db')
                | (.error _, db', _) => (.internalError, db')
              else (.success accessToken user expiresIn none, db)

/-- Store invariant maintained by the schema: primary-key uniqueness of
`id` and the unique index on (email, status) over `signup_attempts`. -/
def saInvariant (db : DB) : Prop :=
  (db.signupAttempts.map (fun r => r.id)).Nodup ∧ (db.signupAttempts.map saKey).Nodup

/-- One step of the signup-attempt state machine: any of the five
operations of SignupAttemptService, with arbitrary arguments. -/
inductive SAStep : DB → DB → Prop
  | create (db : DB) (hash : String → String)
      (email firstName lastName password newId : String) (now : Time) :
      SAStep db (createSignupAttempt db hash email firstName lastName password newId now).2
  | resume (db : DB) (att : SignupAttemptRec) (now : Time) :
      SAStep db (resumeSignupAttempt db att now).2
  | advance (db : DB) (attemptId newStep : String) (completedStep : Option String) (now : Time) :
      SAStep db (updateSignupStep db attemptId newStep completedStep now).2
  | complete (db : DB) (attemptId : String) (now : Time) :
      SAStep db (completeSignupAttempt db attemptId now).2
  | sweep (db : DB) (now : Time) (fault : Bool) :
      SAStep db (markExpiredAttempts db now fault).2

/-- Store states reachable from the empty store by signup-attempt
operations. -/
inductive SAReach : DB → Prop
  | empty : SAReach emptyDB
  | step (db db' : DB) : SAReach db → SAStep db db' → SAReach db'

/-- Concrete configuration used by the evaluation witnesses. -/
def cfgW : Config :=
  { accessSecret := "A"
    refreshSecret := "R"
    signupSecret := "S"
    accessExpirySec := 900
    refreshExpiryDays := 30
    signupExpiryMs := 7200000
    rotationDays := 7 }

/-- Concrete refresh-token row for the witnesses. -/
def rtW : RefreshTokenRec :=
  { id := "rt1"
    token := refreshJwt cfgW "u1" "rt1" 0
    userId := "u1"
    revoked := false
    expiresAt := 2592000000
    createdAt := 0 }

/-- Concrete active user owning `rtW`. -/
def userW : UserRec :=
  { id := "u1", email := "u1@x.io", firstName := "F", lastName := "L"
    passwordHash := "h", emailVerified := true, status := .ACTIVE }

/-- Concrete store with one user and one refresh token. -/
def dbW : DB := { users := [userW], refreshTokens := [rtW], signupAttempts := [] }

/-- Concrete inactive user for the inactive-account witness. -/
def userInactive : UserRec :=
  { id := "u2", email := "u2@x.io", firstName := "F", lastName := "L"
    passwordHash := "h", emailVerified := true, status := .SUSPENDED }

/-- Refresh-token row owned by the inactive user: unrevoked, unexpired. -/
def rtInactive : RefreshTokenRec :=
  { id := "rt2"
    token := refreshJwt cfgW "u2" "rt2" 0
    userId := "u2"
    revoked := false
    expiresAt := 2592000000
    createdAt := 0 }

/-- Store for the inactive-account witness. -/
def dbInactive : DB :=
  { users := [userInactive], refreshTokens := [rtInactive], signupAttempts := [] }

/-- A live (unexpired, IN_PROGRESS) signup attempt created at time 0. -/
def attLive : SignupAttemptRec := freshAttemptRec "a@b.c" "F" "L" "ph" "at1" 0

/-- Store holding a live IN_PROGRESS attempt for `a@b.c` and no user. -/
def dbLive : DB := { users := [], refreshTokens := [], signupAttempts := [attLive] }

/-- An (email, EXPIRED) row for `e@x`. -/
def attExpiredRow : SignupAttemptRec :=
  { freshAttemptRec "e@x" "F" "L" "h" "s1" 0 with status := .EXPIRED }

/-- An IN_PROGRESS row for `e@x` whose deadline (time 7200000) has passed. -/
def attStale : SignupAttemptRec := freshAttemptRec "e@x" "F" "L" "h" "s2" 0

/-- Store where the sweep's transition of `attStale` would create a second
(e@x, EXPIRED) row. -/
def dbSweepBlocked : DB :=
  { users := [], refreshTokens := [], signupAttempts := [attExpiredRow, attStale] }

/-- An (email, COMPLETED) row for `e@x`. -/
def attCompletedRow : SignupAttemptRec :=
  { freshAttemptRec "e@x" "F" "L" "h" "s3" 0 with status := .COMPLETED }

/-- Store where completing `attStale` would create a second
(e@x, COMPLETED) row. -/
def dbCompleteBlocked : DB :=
  { users := [], refreshTokens := [], signupAttempts := [attCompletedRow, attStale] }

/-- The store after the rotation's revoke step: the row with the old token
id flipped to revoked. -/
def dbAfterRevoke (db : DB) (oldTokenId : String) : DB :=
  { db with
    refreshTokens :=
      db.refreshTokens.map
        (fun r => if r.id = oldTokenId then { r with revoked := true } else r) }

/-- The store after an insert of a refresh-token row. -/
def dbAfterInsert (db : DB) (rec : RefreshTokenRec) : DB :=
  { db with refreshTokens := rec :: db.refreshTokens }

/-- Rotation time for the concrete C1 witness: day 8. -/
def tRot : Time := 8 * msPerDay

/-- Store produced by the witness rotation: the fresh row plus the revoked
old row. -/
def dbRot : DB :=
  { users := [userW]
    refreshTokens := [freshRefreshRec cfgW "u1" "rt9" tRot, { rtW with revoked := true }]
    signupAttempts := [] }

/-- Helper: under the unique index (Nodup of the mapped keys), at most one
row of a table carries any given key. -/
theorem filter_key_length_le_one {α β : Type} [DecidableEq β] (f : α → β) (k : β) :
    ∀ l : List α, (l.map f).Nodup → (l.filter (fun a => f a = k)).length ≤ 1 := by
  intro l
  induction l with
  | nil => intro _; simp
  | cons a t ih =>
    intro h
    rw [List.map_cons, List.nodup_cons] at h
    by_cases hk : f a = k
    · have hnil : t.filter (fun b => decide (f b = k)) = [] := by
        apply List.filter_eq_nil_iff.mpr
        intro b hb
        simp only [decide_eq_true_eq]
        intro hbk
        exact h.1 (hk ▸ hbk ▸ List.mem_map_of_mem f hb)
      simp [List.filter_cons, hk, hnil]
    · have := ih h.2
      simpa [List.filter_cons, hk]

/-- C5: shouldRotate returns true exactly when the refresh-token row exists
and its age `now - createdAt` is at least the rotation threshold in days
(so the boundary itself rotates); when the row is missing it returns false
rather than raising an error. -/
theorem shouldRotate_iff_age_at_least_threshold (cfg : Config) (db : DB) (tokenId : String)
    (now : Time) :
    (shouldRotateRefreshToken cfg db tokenId now = true ↔
      ∃ r, findRefreshToken db tokenId = some r ∧
        cfg.rotationDays * msPerDay ≤ now - r.createdAt) ∧
    (findRefreshToken db tokenId = none →
      shouldRotateRefreshToken cfg db tokenId now = false) := by
  unfold shouldRotateRefreshToken
  cases h : findRefreshToken db tokenId with
  | none => simp
  | some r => simp

/-- Witness for C5: a missing row yields false; a row aged exactly seven
days (the default threshold) rotates. -/
theorem shouldRotate_iff_age_at_least_threshold_witness :
    shouldRotateRefreshToken cfgW dbW "nope" 999999999999 = false ∧
    shouldRotateRefreshToken cfgW dbW "rt1" (7 * msPerDay) = true := by
  constructor
  · exact (shouldRotate_iff_age_at_least_threshold cfgW dbW "nope" 999999999999).2 (by decide)
  · exact (shouldRotate_iff_age_at_least_threshold cfgW dbW "rt1" (7 * msPerDay)).1.mpr
      ⟨rtW, by decide, by decide⟩

/-- C6: a signup token verified before its expiry round-trips to exactly the
attemptId, email and currentStep it was issued with; and cross-kind
verification — a refresh token through verifySignupToken, or a signup token
through verifyRefreshToken — fails with the unauthorized error at every
time, whatever the configured secrets. -/
theorem signup_token_roundtrip_and_cross_kind_rejection
    (cfg : Config) (attemptId email currentStep userId tokenId : String) (t0 t1 : Time)
    (now : Time) (hlive : now < t0 + cfg.signupExpiryMs) :
    verifySignupToken cfg (generateSignupToken cfg attemptId email currentStep t0) now
      = .ok (attemptId, email, currentStep) ∧
    (∀ n : Time, verifySignupToken cfg (refreshJwt cfg userId tokenId t1) n
      = .error .unauthorized) ∧
    (∀ n : Time, verifyRefreshToken cfg (generateSignupToken cfg attemptId email currentStep t0) n
      = .error .unauthorized) := by
  refine ⟨?_, ?_, ?_⟩
  · unfold verifySignupToken generateSignupToken Jwt.verify
    simp [hlive]
  · intro n
    unfold verifySignupToken refreshJwt Jwt.verify
    by_cases h : cfg.refreshSecret = cfg.signupSecret ∧ n < t1 + cfg.refreshExpiryDays * msPerDay
    · simp [h]
    · simp [h]
  · intro n
    unfold verifyRefreshToken generateSignupToken Jwt.verify
    by_cases h : cfg.signupSecret = cfg.refreshSecret ∧ n < t0 + cfg.signupExpiryMs
    · simp [h]
    · simp [h]

/-- Witness for C6 at concrete inputs. -/
theorem signup_token_roundtrip_and_cross_kind_rejection_witness :
    verifySignupToken cfgW (generateSignupToken cfgW "at1" "a@b.c" "email_verification" 0) 100
      = .ok ("at1", "a@b.c", "email_verification") ∧
    verifySignupToken cfgW (refreshJwt cfgW "u1" "t1" 0) 100 = .error .unauthorized ∧
    verifyRefreshToken cfgW (generateSignupToken cfgW "at1" "a@b.c" "email_verification" 0) 100
      = .error .unauthorized := by
  have h := signup_token_roundtrip_and_cross_kind_rejection cfgW "at1" "a@b.c"
    "email_verification" "u1" "t1" 0 0 100 (by decide)
  exact ⟨h.1, h.2.1 100, h.2.2 100⟩

/-- C7 counterexample: with a store failure injected, both revocation
operations still return success to the caller — the persistence failure is
not propagated as any error, contradicting the claimed
service-unavailable propagation. -/
theorem revoke_failure_not_propagated_counterexample :
    (revokeRefreshToken dbW "rt1" true).1 = .ok () ∧
    (revokeRefreshToken dbW "rt1" true).1 ≠ .error .internal ∧
    (revokeAllUserRefreshTokens dbW "u1" true).1 = .ok () ∧
    (revokeAllUserRefreshTokens dbW "u1" true).1 ≠ .error .internal := by decide

/-- C7 (amended): revoke and revokeAll are idempotent — a second call
leaves the store exactly as the first left it — but persistence failures
during revocation are caught and logged, never propagated: the caller
always receives a successful result. -/
theorem revoke_idempotent_and_failure_swallowed (db : DB) (tokenId userId : String) :
    revokeRefreshToken (revokeRefreshToken db tokenId false).2 tokenId false
      = (.ok (), (revokeRefreshToken db tokenId false).2) ∧
    revokeAllUserRefreshTokens (revokeAllUserRefreshTokens db userId false).2 userId false
      = (.ok (), (revokeAllUserRefreshTokens db userId false).2) ∧
    (∀ fault : Bool, (revokeRefreshToken db tokenId fault).1 = .ok ()) ∧
    (∀ fault : Bool, (revokeAllUserRefreshTokens db userId fault).1 = .ok ()) := by
  refine ⟨?_, ?_, ?_, ?_⟩
  · unfold revokeRefreshToken refreshTokenSetRevoked
    by_cases hany : db.refreshTokens.any (fun r => r.id = tokenId)
    · have hany2 : (db.refreshTokens.map
          (fun r => if r.id = tokenId then { r with revoked := true } else r)).any
          (fun r => r.id = tokenId) = true := by
        rw [List.any_map]
        rw [show ((fun (r : RefreshTokenRec) => decide (r.id = tokenId)) ∘
            (fun r => if r.id = tokenId then { r with revoked := true } else r))
            = (fun r => decide (r.id = tokenId)) from ?_]
        · exact hany
        · funext r
          by_cases h : r.id = tokenId <;> simp [h]
      have hmapmap : ∀ l : List RefreshTokenRec,
          (l.map (fun r => if r.id = tokenId then { r with revoked := true } else r)).map
            (fun r => if r.id = tokenId then { r with revoked := true } else r)
          = l.map (fun r => if r.id = tokenId then { r with revoked := true } else r) := by
        intro l
        rw [List.map_map]
        apply List.map_congr_left
        intro r _
        by_cases h : r.id = tokenId <;> simp [h]
      simp only [hany, if_true, Bool.false_eq_true, if_false, hany2, hmapmap]
    · simp only [Bool.false_eq_true, if_false, hany, if_neg]
  · unfold revokeAllUserRefreshTokens refreshTokenRevokeAllForUser
    have hmapmap : ∀ l : List RefreshTokenRec,
        (l.map (fun r => if r.userId = userId ∧ r.revoked = false then
          { r with revoked := true } else r)).map
          (fun r => if r.userId = userId ∧ r.revoked = false then { r with revoked := true } else r)
        = l.map (fun r => if r.userId = userId ∧ r.revoked = false then
          { r with revoked := true } else r) := by
      intro l
      rw [List.map_map]
      apply List.map_congr_left
      intro r _
      by_cases h : r.userId = userId ∧ r.revoked = false
      · simp [h]
      · simp [h]
    simp [hmapmap]
  · intro fault
    unfold revokeRefreshToken
    cases refreshTokenSetRevoked db tokenId fault <;> rfl
  · intro fault
    unfold revokeAllUserRefreshTokens
    cases refreshTokenRevokeAllForUser db userId fault <;> rfl

/-- Helper: an updateMany whose predicate matches no row either commits
nothing (count 0, store unchanged) or fails the constraint check — in both
cases the table is untouched. -/
theorem updateMany_no_match (db : DB) (p : SignupAttemptRec → Bool)
    (f : SignupAttemptRec → SignupAttemptRec)
    (hall : ∀ r ∈ db.signupAttempts, p r = false) :
    signupAttemptUpdateMany db p f false = .ok (0, db) ∨
    signupAttemptUpdateMany db p f false = .error () := by
  have hmap : db.signupAttempts.map (fun r => if p r then f r else r) = db.signupAttempts := by
    have hcong : ∀ r ∈ db.signupAttempts, (if p r then f r else r) = id r := by
      intro r hr
      simp [hall r hr]
    rw [List.map_congr_left hcong, List.map_id]
  have hfil : db.signupAttempts.filter p = [] := by
    apply List.filter_eq_nil_iff.mpr
    intro a ha
    simp [hall a ha]
  unfold signupAttemptUpdateMany
  simp only [Bool.false_eq_true, if_false, hmap, hfil, List.length_nil]
  by_cases hnod : (db.signupAttempts.map saKey).Nodup
  · left
    rw [if_pos hnod]
  · right
    rw [if_neg hnod]

/-- C10: markExpiredAttempts never surfaces an error: under a store failure
it returns 0 with the store unchanged — exactly the result of a successful
sweep that found no expired attempt. -/
theorem sweep_swallows_failure_returns_zero (db : DB) (now : Time) :
    markExpiredAttempts db now true = (0, db) ∧
    ((db.signupAttempts.filter
        (fun r => r.status = .IN_PROGRESS ∧ r.expiresAt < now)).length = 0 →
      markExpiredAttempts db now false = (0, db)) := by
  constructor
  · rfl
  · intro h
    have hnil : db.signupAttempts.filter
        (fun r => decide (r.status = AttemptStatus.IN_PROGRESS ∧ r.expiresAt < now)) = [] :=
      List.length_eq_zero.mp h
    have hall' := List.filter_eq_nil_iff.mp hnil
    have hall : ∀ r ∈ db.signupAttempts,
        (fun r => decide (r.status = AttemptStatus.IN_PROGRESS ∧ r.expiresAt < now)) r
          = false := by
      intro r hr
      simpa using hall' r hr
    rcases updateMany_no_match db _
        (fun r => { r with status := AttemptStatus.EXPIRED }) hall with hok | herr
    · unfold markExpiredAttempts
      rw [hok]
    · unfold markExpiredAttempts
      rw [herr]

/-- Witness for C10: the fault path and the nothing-to-sweep path at a
concrete store coincide. -/
theorem sweep_swallows_failure_returns_zero_witness :
    markExpiredAttempts dbW 100 true = (0, dbW) ∧ markExpiredAttempts dbW 100 false = (0, dbW) := by
  have h := sweep_swallows_failure_returns_zero dbW 100
  exact ⟨h.1, h.2 (by decide)⟩

/-- C4: when the refresh token passes signature/type/expiry verification,
its database row exists, is not revoked and not row-expired, and the owning
user is resolved but is not ACTIVE, refreshApplication returns the
inactive-account outcome and never a success outcome. -/
theorem refresh_inactive_account_never_success
    (cfg : Config) (db : DB) (tok : Jwt) (now : Time) (newTokenId sub tokenId : String)
    (tokenRecord : RefreshTokenRec) (user : UserRec)
    (hver : verifyRefreshToken cfg tok now = .ok (sub, tokenId))
    (hrec : findRefreshToken db tokenId = some tokenRecord)
    (hrev : tokenRecord.revoked = false)
    (hexp : ¬ tokenRecord.expiresAt < now)
    (huser : findUser db tokenRecord.userId = some user)
    (hstat : user.status ≠ .ACTIVE) :
    (refreshApplication cfg db (some tok) now newTokenId).1 = .inactiveAccount ∧
    ∀ a u e nt, (refreshApplication cfg db (some tok) now newTokenId).1 ≠ .success a u e nt := by
  have hmain : (refreshApplication cfg db (some tok) now newTokenId).1 = .inactiveAccount := by
    simp only [refreshApplication, hver, hrec, huser]
    simp [hrev, hexp, hstat]
  refine ⟨hmain, ?_⟩
  rw [hmain]
  intro a u e nt hc
  exact RefreshOutcome.noConfusion hc

/-- Witness for C4: a suspended user with an otherwise fully valid refresh
token gets the inactive-account outcome. -/
theorem refresh_inactive_account_never_success_witness :
    (refreshApplication cfgW dbInactive (some (refreshJwt cfgW "u2" "rt2" 0)) 500 "n").1
      = .inactiveAccount := by
  exact (refresh_inactive_account_never_success cfgW dbInactive (refreshJwt cfgW "u2" "rt2" 0)
    500 "n" "u2" "rt2" rtInactive userInactive (by decide) (by decide) (by decide) (by decide)
    (by decide) (by decide)).1

/-- C8: resuming an existing IN_PROGRESS attempt increments attemptCount by
exactly one and refreshes updatedAt, leaving every other field — current
step, completed steps, status, email, profile fields, verification flags,
creation time, expiry deadline, completion time — unchanged, and touching
no other row of the table. -/
theorem resume_increments_count_and_frames_rest
    (db : DB) (att : SignupAttemptRec) (now : Time)
    (hstatus : att.status = .IN_PROGRESS)
    (hfind : db.signupAttempts.find? (fun r => r.id = att.id) = some att)
    (hids : (db.signupAttempts.map (fun r => r.id)).Nodup)
    (hkeys : (db.signupAttempts.map saKey).Nodup) :
    (resumeSignupAttempt db att now).1
      = .ok { att with attemptCount := att.attemptCount + 1, updatedAt := now } ∧
    (resumeSignupAttempt db att now).2.signupAttempts
      = db.signupAttempts.map (fun r => if r.id = att.id then
          { att with attemptCount := att.attemptCount + 1, updatedAt := now } else r) ∧
    ({ att with attemptCount := att.attemptCount + 1, updatedAt := now }).attemptCount
      = att.attemptCount + 1 ∧
    ({ att with attemptCount := att.attemptCount + 1, updatedAt := now }).updatedAt = now ∧
    ({ att with attemptCount := att.attemptCount + 1, updatedAt := now }).currentStep
      = att.currentStep ∧
    ({ att with attemptCount := att.attemptCount + 1, updatedAt := now }).completedSteps
      = att.completedSteps ∧
    ({ att with attemptCount := att.attemptCount + 1, updatedAt := now }).status = att.status ∧
    ({ att with attemptCount := att.attemptCount + 1, updatedAt := now }).email = att.email ∧
    ({ att with attemptCount := att.attemptCount + 1, updatedAt := now }).firstName
      = att.firstName ∧
    ({ att with attemptCount := att.attemptCount + 1, updatedAt := now }).lastName
      = att.lastName ∧
    ({ att with attemptCount := att.attemptCount + 1, updatedAt := now }).passwordHash
      = att.passwordHash ∧
    ({ att with attemptCount := att.attemptCount + 1, updatedAt := now }).emailVerified
      = att.emailVerified ∧
    ({ att with attemptCount := att.attemptCount + 1, updatedAt := now }).phoneVerified
      = att.phoneVerified ∧
    ({ att with attemptCount := att.attemptCount + 1, updatedAt := now }).mfaEnabled
      = att.mfaEnabled ∧
    ({ att with attemptCount := att.attemptCount + 1, updatedAt := now }).createdAt
      = att.createdAt ∧
    ({ att with attemptCount := att.attemptCount + 1, updatedAt := now }).expiresAt
      = att.expiresAt ∧
    ({ att with attemptCount := att.attemptCount + 1, updatedAt := now }).completedAt
      = att.completedAt := by
  have hmem : att ∈ db.signupAttempts := List.mem_of_find?_eq_some hfind
  have hkeys2 : ((db.signupAttempts.map (fun r => if r.id = att.id then
      { r with attemptCount := att.attemptCount + 1, updatedAt := now } else r)).map
        saKey).Nodup := by
    rw [List.map_map]
    have hfun : (saKey ∘ fun r => if r.id = att.id then
        { r with attemptCount := att.attemptCount + 1, updatedAt := now } else r) = saKey := by
      funext r
      by_cases h : r.id = att.id <;> simp [saKey, h]
    rw [hfun]
    exact hkeys
  have hupd : signupAttemptUpdate db att.id
      (fun r => { r with attemptCount := att.attemptCount + 1, updatedAt := now })
      = .ok ({ att with attemptCount := att.attemptCount + 1, updatedAt := now },
          { db with signupAttempts := db.signupAttempts.map (fun r => if r.id = att.id then
            { r with attemptCount := att.attemptCount + 1, updatedAt := now } else r) }) := by
    simp only [signupAttemptUpdate, hfind]
    rw [if_pos hkeys2]
  have hrows : db.signupAttempts.map (fun r => if r.id = att.id then
      { r with attemptCount := att.attemptCount + 1, updatedAt := now } else r)
      = db.signupAttempts.map (fun r => if r.id = att.id then
      { att with attemptCount := att.attemptCount + 1, updatedAt := now } else r) := by
    apply List.map_congr_left
    intro r hr
    by_cases h : r.id = att.id
    · rw [if_pos h, if_pos h, List.inj_on_of_nodup_map hids hr hmem h]
    · rw [if_neg h, if_neg h]
  unfold resumeSignupAttempt
  rw [hupd]
  exact ⟨rfl, by rw [← hrows], rfl, rfl, rfl, rfl, rfl, rfl, rfl, rfl, rfl, rfl, rfl, rfl,
    rfl, rfl, rfl⟩

/-- Witness for C8 at a concrete store. -/
theorem resume_increments_count_and_frames_rest_witness :
    (resumeSignupAttempt dbLive attLive 50).1
      = .ok { attLive with attemptCount := attLive.attemptCount + 1, updatedAt := 50 } ∧
    (resumeSignupAttempt dbLive attLive 50).2.signupAttempts
      = [{ attLive with attemptCount := attLive.attemptCount + 1, updatedAt := 50 }] := by
  have h := resume_increments_count_and_frames_rest dbLive attLive 50 (by decide) (by decide)
    (by decide) (by decide)
  refine ⟨h.1, ?_⟩
  rw [h.2.1]
  decide

/-- C3 counterexample: in a store holding a live (unexpired, IN_PROGRESS)
attempt for `a@b.c` and no user, createSignupAttempt fails with the
internal error — the raw storage constraint violation surfaced as a 500 —
not with a conflict error. -/
theorem create_with_live_attempt_not_conflict_counterexample :
    (createSignupAttempt dbLive (fun s => s) "a@b.c" "F" "L" "pw" "at2" 100).1
      = .error .internal ∧
    (createSignupAttempt dbLive (fun s => s) "a@b.c" "F" "L" "pw" "at2" 100).1
      ≠ .error .conflict ∧
    attLive.status = .IN_PROGRESS ∧ (100 : Int) < attLive.expiresAt ∧
    checkUserExists dbLive "a@b.c" = false := by decide

/-- C3 (amended): create fails with a conflict error when a User with the
email exists — the only case the service pre-checks; when no such user
exists but an IN_PROGRESS attempt row for the email is present, the service
does not pre-check it: the storage uniqueness constraint rejects the insert
and the service rethrows it as an internal error, not a conflict. -/
theorem create_conflict_for_user_internal_for_live_attempt
    (db : DB) (hash : String → String) (email firstName lastName password newId : String)
    (now : Time) :
    (checkUserExists db email = true →
      (createSignupAttempt db hash email firstName lastName password newId now).1
        = .error .conflict) ∧
    (checkUserExists db email = false →
      (∃ r ∈ db.signupAttempts, r.email = lowerStr email ∧ r.status = .IN_PROGRESS) →
      (createSignupAttempt db hash email firstName lastName password newId now).1
        = .error .internal) := by
  constructor
  · intro h
    simp only [createSignupAttempt, h, if_true]
  · intro h hex
    have hins : signupAttemptInsert db
        (freshAttemptRec email firstName lastName (hash password) newId now) = .error () := by
      obtain ⟨r, hr, hre, hrs⟩ := hex
      have hany : db.signupAttempts.any (fun r2 => r2.id =
          (freshAttemptRec email firstName lastName (hash password) newId now).id ∨
          saKey r2 = saKey (freshAttemptRec email firstName lastName (hash password) newId now))
          = true := by
        apply List.any_eq_true.mpr
        refine ⟨r, hr, ?_⟩
        simp [saKey, freshAttemptRec, hre, hrs]
      unfold signupAttemptInsert
      rw [if_pos hany]
    simp only [createSignupAttempt, h, Bool.false_eq_true, if_false, hins]

/-- Witness for C3 (amended) at concrete stores: an existing user yields a
conflict; an existing live attempt yields the internal error. -/
theorem create_conflict_for_user_internal_for_live_attempt_witness :
    (createSignupAttempt dbW (fun s => s) "u1@x.io" "F" "L" "pw" "n1" 0).1
      = .error .conflict ∧
    (createSignupAttempt dbLive (fun s => s) "a@b.c" "F" "L" "pw" "n1" 0).1
      = .error .internal := by
  constructor
  · exact (create_conflict_for_user_internal_for_live_attempt dbW (fun s => s) "u1@x.io"
      "F" "L" "pw" "n1" 0).1 (by decide)
  · exact (create_conflict_for_user_internal_for_live_attempt dbLive (fun s => s) "a@b.c"
      "F" "L" "pw" "n1" 0).2 (by decide) ⟨attLive, by decide, by decide, by decide⟩

/-- C9: the unique index on (email, status) constrains every status value —
under it at most one row per email holds any given status, EXPIRED and
COMPLETED included; consequently, in a store holding an (email, EXPIRED)
row plus a stale IN_PROGRESS row for the same email the sweep cannot
transition the stale row (the statement aborts, 0 is returned and nothing
changes), and completing an attempt whose email already has a COMPLETED row
fails with an internal error. -/
theorem email_status_unique_for_every_status_blocks_sweep :
    (∀ (db : DB) (e : String) (st : AttemptStatus), (db.signupAttempts.map saKey).Nodup →
      (db.signupAttempts.filter (fun r => saKey r = (e, st))).length ≤ 1) ∧
    (attStale ∈ dbSweepBlocked.signupAttempts ∧ attStale.status = .IN_PROGRESS ∧
      attStale.expiresAt < 8000000) ∧
    markExpiredAttempts dbSweepBlocked 8000000 false = (0, dbSweepBlocked) ∧
    (completeSignupAttempt dbCompleteBlocked "s2" 100).1 = .error .internal := by
  refine ⟨?_, by decide, by decide, by decide⟩
  intro db e st h
  exact filter_key_length_le_one saKey (e, st) db.signupAttempts h

/-- Witness for C9: the uniqueness bound evaluated at a concrete store and
key. -/
theorem email_status_unique_for_every_status_blocks_sweep_witness :
    (dbSweepBlocked.signupAttempts.filter
      (fun r => saKey r = ("e@x", AttemptStatus.EXPIRED))).length ≤ 1 :=
  email_status_unique_for_every_status_blocks_sweep.1 dbSweepBlocked "e@x" .EXPIRED (by decide)

/-- Helper: a committed insert preserves the schema invariant. -/
theorem insert_preserves_invariant (db : DB) (rec : SignupAttemptRec) (db' : DB)
    (hinv : saInvariant db) (hok : signupAttemptInsert db rec = .ok db') :
    saInvariant db' := by
  unfold signupAttemptInsert at hok
  by_cases hany : db.signupAttempts.any (fun r => r.id = rec.id ∨ saKey r = saKey rec) = true
  · rw [if_pos hany] at hok
    exact absurd hok (by simp)
  · rw [if_neg hany] at hok
    have hbound : ∀ r ∈ db.signupAttempts, ¬(r.id = rec.id ∨ saKey r = saKey rec) := by
      intro r hr
      have hfalse : db.signupAttempts.any
          (fun r => r.id = rec.id ∨ saKey r = saKey rec) = false :=
        Bool.eq_false_iff.mpr hany
      have := List.any_eq_false.mp hfalse r hr
      simpa using this
    injection hok with hok
    subst hok
    constructor
    · rw [show ((rec :: db.signupAttempts).map fun r => r.id)
          = rec.id :: (db.signupAttempts.map fun r => r.id) from rfl, List.nodup_cons]
      refine ⟨?_, hinv.1⟩
      intro hmem
      obtain ⟨r, hr, hrid⟩ := List.mem_map.mp hmem
      exact (hbound r hr) (Or.inl hrid)
    · rw [show ((rec :: db.signupAttempts).map saKey)
          = saKey rec :: (db.signupAttempts.map saKey) from rfl, List.nodup_cons]
      refine ⟨?_, hinv.2⟩
      intro hmem
      obtain ⟨r, hr, hrk⟩ := List.mem_map.mp hmem
      exact (hbound r hr) (Or.inr hrk)

/-- Helper: a committed single-row update through an id-preserving data
object preserves the schema invariant. -/
theorem update_preserves_invariant (db : DB) (attemptId : String)
    (f : SignupAttemptRec → SignupAttemptRec) (hid : ∀ r, (f r).id = r.id)
    (hinv : saInvariant db) (res : SignupAttemptRec × DB)
    (hok : signupAttemptUpdate db attemptId f = .ok res) : saInvariant res.2 := by
  unfold signupAttemptUpdate at hok
  cases hfind : db.signupAttempts.find? (fun r => r.id = attemptId) with
  | none =>
    rw [hfind] at hok
    exact absurd hok (by simp)
  | some target =>
    rw [hfind] at hok
    simp only at hok
    by_cases hnod : ((db.signupAttempts.map
        (fun r => if r.id = attemptId then f r else r)).map saKey).Nodup
    · rw [if_pos hnod] at hok
      injection hok with hok
      subst hok
      constructor
      · rw [List.map_map]
        have hfun : ((fun r => r.id) ∘ fun r =>
            if r.id = attemptId then f r else r) = (fun (r : SignupAttemptRec) => r.id) := by
          funext r
          by_cases h : r.id = attemptId <;> simp [h, hid]
        rw [hfun]
        exact hinv.1
      · exact hnod
    · rw [if_neg hnod] at hok
      exact absurd hok (by simp)

/-- Helper: a committed bulk update through an id-preserving data object
preserves the schema invariant. -/
theorem updateMany_preserves_invariant (db : DB) (p : SignupAttemptRec → Bool)
    (f : SignupAttemptRec → SignupAttemptRec) (hid : ∀ r, (f r).id = r.id) (fault : Bool)
    (hinv : saInvariant db) (res : Nat × DB)
    (hok : signupAttemptUpdateMany db p f fault = .ok res) : saInvariant res.2 := by
  unfold signupAttemptUpdateMany at hok
  by_cases hfault : fault = true
  · rw [if_pos hfault] at hok
    exact absurd hok (by simp)
  · rw [if_neg hfault] at hok
    simp only at hok
    by_cases hnod : ((db.signupAttempts.map (fun r => if p r then f r else r)).map saKey).Nodup
    · rw [if_pos hnod] at hok
      injection hok with hok
      subst hok
      constructor
      · rw [List.map_map]
        have hfun : ((fun r => r.id) ∘ fun r => if p r then f r else r)
            = (fun (r : SignupAttemptRec) => r.id) := by
          funext r
          by_cases h : p r <;> simp [h, hid]
        rw [hfun]
        exact hinv.1
      · exact hnod
    · rw [if_neg hnod] at hok
      exact absurd hok (by simp)

/-- Helper: the service wrapper around a single-row update (ok ↦ pass the
row and new store through, error ↦ internal error with the store untouched)
preserves the schema invariant. -/
theorem updateWrapRow_preserves_invariant (db : DB) (attemptId : String)
    (f : SignupAttemptRec → SignupAttemptRec) (hid : ∀ r, (f r).id = r.id)
    (hinv : saInvariant db) :
    saInvariant (match signupAttemptUpdate db attemptId f with
      | .ok (r, db') => ((.ok r : Except ServiceErr SignupAttemptRec), db')
      | .error _ => (.error .internal, db)).2 := by
  cases hupd : signupAttemptUpdate db attemptId f with
  | ok res =>
    obtain ⟨r, db2⟩ := res
    exact update_preserves_invariant db attemptId f hid hinv (r, db2) hupd
  | error e => exact hinv

/-- Helper: the unit-returning wrapper around a single-row update preserves
the schema invariant. -/
theorem updateWrapUnit_preserves_invariant (db : DB) (attemptId : String)
    (f : SignupAttemptRec → SignupAttemptRec) (hid : ∀ r, (f r).id = r.id)
    (hinv : saInvariant db) :
    saInvariant (match signupAttemptUpdate db attemptId f with
      | .ok (_, db') => ((.ok () : Except ServiceErr Unit), db')
      | .error _ => (.error .internal, db)).2 := by
  cases hupd : signupAttemptUpdate db attemptId f with
  | ok res =>
    obtain ⟨r, db2⟩ := res
    exact update_preserves_invariant db attemptId f hid hinv (r, db2) hupd
  | error e => exact hinv

/-- Helper: the count-returning wrapper around a bulk update preserves the
schema invariant. -/
theorem updateManyWrap_preserves_invariant (db : DB) (p : SignupAttemptRec → Bool)
    (f : SignupAttemptRec → SignupAttemptRec) (hid : ∀ r, (f r).id = r.id) (fault : Bool)
    (hinv : saInvariant db) :
    saInvariant (match signupAttemptUpdateMany db p f fault with
      | .ok (n, db') => (n, db')
      | .error _ => (0, db)).2 := by
  cases hupd : signupAttemptUpdateMany db p f fault with
  | ok res =>
    obtain ⟨n, db2⟩ := res
    exact updateMany_preserves_invariant db p f hid fault hinv (n, db2) hupd
  | error e => exact hinv

/-- Helper: createSignupAttempt preserves the schema invariant. -/
theorem create_step_preserves_invariant (db : DB) (hash : String → String)
    (email firstName lastName password newId : String) (now : Time)
    (hinv : saInvariant db) :
    saInvariant (createSignupAttempt db hash email firstName lastName password newId now).2 := by
  unfold createSignupAttempt
  by_cases hu : checkUserExists db email = true
  · rw [if_pos hu]
    exact hinv
  · rw [if_neg hu]
    simp only
    cases hins : signupAttemptInsert db
        (freshAttemptRec email firstName lastName (hash password) newId now) with
    | ok db2 => exact insert_preserves_invariant db _ db2 hinv hins
    | error e => exact hinv

/-- Helper: resumeSignupAttempt preserves the schema invariant. -/
theorem resume_step_preserves_invariant (db : DB) (att : SignupAttemptRec) (now : Time)
    (hinv : saInvariant db) :
    saInvariant (resumeSignupAttempt db att now).2 := by
  unfold resumeSignupAttempt
  exact updateWrapRow_preserves_invariant db att.id _ (by intro r; rfl) hinv

/-- Helper: updateSignupStep preserves the schema invariant. -/
theorem advance_step_preserves_invariant (db : DB) (attemptId newStep : String)
    (completedStep : Option String) (now : Time) (hinv : saInvariant db) :
    saInvariant (updateSignupStep db attemptId newStep completedStep now).2 := by
  unfold updateSignupStep
  exact updateWrapRow_preserves_invariant db attemptId _ (by intro r; rfl) hinv

/-- Helper: completeSignupAttempt preserves the schema invariant. -/
theorem complete_step_preserves_invariant (db : DB) (attemptId : String) (now : Time)
    (hinv : saInvariant db) :
    saInvariant (completeSignupAttempt db attemptId now).2 := by
  unfold completeSignupAttempt
  exact updateWrapUnit_preserves_invariant db attemptId _ (by intro r; rfl) hinv

/-- Helper: markExpiredAttempts preserves the schema invariant. -/
theorem sweep_step_preserves_invariant (db : DB) (now : Time) (fault : Bool)
    (hinv : saInvariant db) :
    saInvariant (markExpiredAttempts db now fault).2 := by
  unfold markExpiredAttempts
  exact updateManyWrap_preserves_invariant db _ _ (by intro r; rfl) fault hinv

/-- Helper: every signup-attempt operation preserves the schema invariant. -/
theorem sastep_preserves_invariant (db db' : DB) (h : SAStep db db') (hinv : saInvariant db) :
    saInvariant db' := by
  cases h with
  | create hash email firstName lastName password newId now =>
    exact create_step_preserves_invariant db hash email firstName lastName password newId now hinv
  | resume att now => exact resume_step_preserves_invariant db att now hinv
  | advance attemptId newStep completedStep now =>
    exact advance_step_preserves_invariant db attemptId newStep completedStep now hinv
  | complete attemptId now => exact complete_step_preserves_invariant db attemptId now hinv
  | sweep now fault => exact sweep_step_preserves_invariant db now fault hinv

/-- Helper: every reachable store satisfies the schema invariant. -/
theorem sareach_invariant (db : DB) (h : SAReach db) : saInvariant db := by
  induction h with
  | empty => exact ⟨List.nodup_nil, List.nodup_nil⟩
  | step db db' hr hs ih => exact sastep_preserves_invariant db db' hs ih

/-- C2 counterexample: against a store already holding a live IN_PROGRESS
attempt for the email, two create calls for that email are both rejected —
zero of the two succeed, not exactly one. -/
theorem create_race_against_live_attempt_counterexample :
    attLive ∈ dbLive.signupAttempts ∧ attLive.status = .IN_PROGRESS ∧
    (100 : Int) < attLive.expiresAt ∧
    (createSignupAttempt dbLive (fun s => s) "a@b.c" "F" "L" "pw" "n1" 100).1
      = .error .internal ∧
    (createSignupAttempt (createSignupAttempt dbLive (fun s => s) "a@b.c" "F" "L" "pw" "n1"
      100).2 (fun s => s) "a@b.c" "F" "L" "pw" "n2" 100).1 = .error .internal := by decide

/-- C2 (amended): in every store reachable by the signup-attempt operations
at most one IN_PROGRESS row exists per email; and of two create calls for
the same email against a state holding no IN_PROGRESS row for it, exactly
one succeeds and the other is rejected (against a state that already holds
a live attempt, both are rejected — see the counterexample). -/
theorem at_most_one_in_progress_and_create_race (db : DB) (hreach : SAReach db)
    (email : String) :
    (db.signupAttempts.filter
      (fun r => saKey r = (email, AttemptStatus.IN_PROGRESS))).length ≤ 1 ∧
    (∀ (hash : String → String) (e fn ln pw id1 id2 : String) (n1 n2 : Time),
      checkUserExists db e = false →
      (∀ r ∈ db.signupAttempts, r.id ≠ id1 ∧ saKey r ≠ (lowerStr e, AttemptStatus.IN_PROGRESS)) →
      (createSignupAttempt db hash e fn ln pw id1 n1).1
        = .ok (freshAttemptRec e fn ln (hash pw) id1 n1) ∧
      (createSignupAttempt (createSignupAttempt db hash e fn ln pw id1 n1).2 hash e fn ln pw
        id2 n2).1 = .error .internal) := by
  constructor
  · exact filter_key_length_le_one saKey (email, AttemptStatus.IN_PROGRESS) db.signupAttempts
      (sareach_invariant db hreach).2
  · intro hash e fn ln pw id1 id2 n1 n2 hu hfree
    have hkey1 : saKey (freshAttemptRec e fn ln (hash pw) id1 n1)
        = (lowerStr e, AttemptStatus.IN_PROGRESS) := rfl
    have hany1 : db.signupAttempts.any (fun r =>
        r.id = (freshAttemptRec e fn ln (hash pw) id1 n1).id ∨
        saKey r = saKey (freshAttemptRec e fn ln (hash pw) id1 n1)) = false := by
      apply List.any_eq_false.mpr
      intro r hr
      have h1 := (hfree r hr).1
      have h2 := (hfree r hr).2
      rw [hkey1]
      simp only [freshAttemptRec, decide_eq_true_eq]
      intro hc
      cases hc with
      | inl hl => exact h1 hl
      | inr hrk => exact h2 hrk
    have hins1 : signupAttemptInsert db (freshAttemptRec e fn ln (hash pw) id1 n1)
        = .ok { db with signupAttempts :=
            freshAttemptRec e fn ln (hash pw) id1 n1 :: db.signupAttempts } := by
      unfold signupAttemptInsert
      rw [hany1]
      rfl
    have hc1 : createSignupAttempt db hash e fn ln pw id1 n1
        = (.ok (freshAttemptRec e fn ln (hash pw) id1 n1),
           { db with signupAttempts :=
             freshAttemptRec e fn ln (hash pw) id1 n1 :: db.signupAttempts }) := by
      simp only [createSignupAttempt, hu, Bool.false_eq_true, if_false, hins1]
    have hu2 : checkUserExists
        ({ db with signupAttempts :=
                     freshAttemptRec e fn ln (hash pw) id1 n1 :: db.signupAttempts })
        e = false := hu
    have hany2 :
        ({ db with signupAttempts :=
                     freshAttemptRec e fn ln (hash pw) id1 n1 :: db.signupAttempts }
          : DB).signupAttempts.any
        (fun r => r.id = (freshAttemptRec e fn ln (hash pw) id2 n2).id ∨
          saKey r = saKey (freshAttemptRec e fn ln (hash pw) id2 n2)) = true := by
      apply List.any_eq_true.mpr
      refine ⟨freshAttemptRec e fn ln (hash pw) id1 n1, List.mem_cons_self _ _, ?_⟩
      simp [saKey, freshAttemptRec]
    have hins2 : signupAttemptInsert
        ({ db with signupAttempts :=
                     freshAttemptRec e fn ln (hash pw) id1 n1 :: db.signupAttempts })
        (freshAttemptRec e fn ln (hash pw) id2 n2) = .error () := by
      unfold signupAttemptInsert
      rw [if_pos hany2]
    refine ⟨by rw [hc1], ?_⟩
    rw [hc1]
    simp only [createSignupAttempt, hu2, Bool.false_eq_true, if_false, hins2]

/-- Witness for C2 (amended): from the empty store, the bound holds and two
creates for the same email yield one success then one rejection. -/
theorem at_most_one_in_progress_and_create_race_witness :
    (emptyDB.signupAttempts.filter
      (fun r => saKey r = ("a@b.c", AttemptStatus.IN_PROGRESS))).length ≤ 1 ∧
    (createSignupAttempt emptyDB (fun s => s) "a@b.c" "F" "L" "ph" "at1" 0).1 = .ok attLive ∧
    (createSignupAttempt (createSignupAttempt emptyDB (fun s => s) "a@b.c" "F" "L" "ph" "at1"
      0).2 (fun s => s) "a@b.c" "F" "L" "ph" "at2" 5).1 = .error .internal := by
  have h := at_most_one_in_progress_and_create_race emptyDB SAReach.empty "a@b.c"
  have h2 := h.2 (fun s => s) "a@b.c" "F" "L" "ph" "at1" "at2" 0 5 (by decide) (by decide)
  exact ⟨h.1, h2.1, h2.2⟩

/-- C1: when rotation completes successfully, the old token's row is
revoked, exactly one new row exists — non-revoked, owned by the user, with
a createdAt later than the old row's — and the trace of store writes is the
revocation followed by the insert: revoke-then-issue, never the reverse. -/
theorem rotate_revokes_then_issues_exactly_one
    (cfg : Config) (db : DB) (oldTokenId userId newTokenId : String) (now : Time)
    (tok : Jwt) (exp : Time) (db' : DB) (trace : List StoreOp)
    (oldRec : RefreshTokenRec)
    (hold : findRefreshToken db oldTokenId = some oldRec)
    (hage : oldRec.createdAt < now)
    (hok : rotateRefreshToken cfg db oldTokenId userId newTokenId now
      = (.ok (tok, exp), db', trace)) :
    (∀ r ∈ db'.refreshTokens, r.id = oldTokenId → r.revoked = true) ∧
    { oldRec with revoked := true } ∈ db'.refreshTokens ∧
    db'.refreshTokens.filter (fun r => decide (r ∉ db.refreshTokens) &&
        decide (r.userId = userId) && !r.revoked && decide (oldRec.createdAt < r.createdAt))
      = [freshRefreshRec cfg userId newTokenId now] ∧
    trace = [.revokeToken oldTokenId, .insertToken (freshRefreshRec cfg userId newTokenId now)]
    := by
  have hmem : oldRec ∈ db.refreshTokens := List.mem_of_find?_eq_some hold
  have holdid : oldRec.id = oldTokenId := by
    have := List.find?_some hold
    simpa using this
  have hany : db.refreshTokens.any (fun r => r.id = oldTokenId) = true :=
    List.any_eq_true.mpr ⟨oldRec, hmem, by simp [holdid]⟩
  have hrevok : refreshTokenSetRevoked db oldTokenId false
      = .ok (dbAfterRevoke db oldTokenId) := by
    unfold refreshTokenSetRevoked dbAfterRevoke
    simp only [Bool.false_eq_true, if_false]
    rw [if_pos hany]
  unfold rotateRefreshToken at hok
  rw [hrevok] at hok
  simp only at hok
  unfold generateRefreshToken at hok
  simp only at hok
  by_cases hfresh : (dbAfterRevoke db oldTokenId).refreshTokens.any
      (fun r => r.id = (freshRefreshRec cfg userId newTokenId now).id ∨
        r.token = (freshRefreshRec cfg userId newTokenId now).token) = true
  · have hins : refreshTokenInsert (dbAfterRevoke db oldTokenId)
        (freshRefreshRec cfg userId newTokenId now) = .error () := by
      unfold refreshTokenInsert
      rw [if_pos hfresh]
    rw [hins] at hok
    simp at hok
  · have hfresh' : (dbAfterRevoke db oldTokenId).refreshTokens.any
        (fun r => r.id = (freshRefreshRec cfg userId newTokenId now).id ∨
          r.token = (freshRefreshRec cfg userId newTokenId now).token) = false :=
      Bool.eq_false_iff.mpr hfresh
    have hnofresh := List.any_eq_false.mp hfresh'
    have hins : refreshTokenInsert (dbAfterRevoke db oldTokenId)
        (freshRefreshRec cfg userId newTokenId now)
        = .ok (dbAfterInsert (dbAfterRevoke db oldTokenId)
            (freshRefreshRec cfg userId newTokenId now)) := by
      unfold refreshTokenInsert dbAfterInsert
      rw [hfresh']
      simp
    rw [hins] at hok
    simp only [Prod.mk.injEq, Except.ok.injEq] at hok
    obtain ⟨⟨htok, hexp⟩, hdb, htrace⟩ := hok
    subst hdb
    subst htrace
    have hdbi : (dbAfterInsert (dbAfterRevoke db oldTokenId)
        (freshRefreshRec cfg userId newTokenId now)).refreshTokens
        = freshRefreshRec cfg userId newTokenId now ::
          db.refreshTokens.map
            (fun r => if r.id = oldTokenId then { r with revoked := true } else r) := rfl
    have hid_ne : ¬ newTokenId = oldTokenId := by
      intro hc
      have hmem1 : (if oldRec.id = oldTokenId then { oldRec with revoked := true } else oldRec)
          ∈ (dbAfterRevoke db oldTokenId).refreshTokens :=
        List.mem_map_of_mem _ hmem
      have hno := hnofresh _ hmem1
      rw [if_pos holdid] at hno
      simp [freshRefreshRec, holdid, hc] at hno
    refine ⟨?_, ?_, ?_, rfl⟩
    · intro r hr hrid
      rw [hdbi] at hr
      simp only [List.mem_cons] at hr
      cases hr with
      | inl hnew =>
        exfalso
        apply hid_ne
        rw [hnew] at hrid
        simpa [freshRefreshRec] using hrid
      | inr hmapped =>
        obtain ⟨r0, hr0, hr0eq⟩ := List.mem_map.mp hmapped
        by_cases h0 : r0.id = oldTokenId
        · rw [if_pos h0] at hr0eq
          rw [← hr0eq]
        · rw [if_neg h0] at hr0eq
          subst hr0eq
          exact absurd hrid h0
    · rw [hdbi]
      apply List.mem_cons_of_mem
      have heq : (if oldRec.id = oldTokenId then { oldRec with revoked := true } else oldRec)
          = { oldRec with revoked := true } := if_pos holdid
      rw [← heq]
      exact List.mem_map_of_mem _ hmem
    · rw [hdbi]
      have hnotin : freshRefreshRec cfg userId newTokenId now ∉ db.refreshTokens := by
        intro hc
        have hmem2 : (if (freshRefreshRec cfg userId newTokenId now).id = oldTokenId then
              { freshRefreshRec cfg userId newTokenId now with revoked := true }
            else freshRefreshRec cfg userId newTokenId now)
            ∈ (dbAfterRevoke db oldTokenId).refreshTokens :=
          List.mem_map_of_mem _ hc
        have hno := hnofresh _ hmem2
        by_cases hcid : (freshRefreshRec cfg userId newTokenId now).id = oldTokenId
        · rw [if_pos hcid] at hno
          simp [freshRefreshRec] at hno
        · rw [if_neg hcid] at hno
          simp at hno
      have hpnew : (decide (freshRefreshRec cfg userId newTokenId now ∉ db.refreshTokens) &&
          decide ((freshRefreshRec cfg userId newTokenId now).userId = userId) &&
          !(freshRefreshRec cfg userId newTokenId now).revoked &&
          decide (oldRec.createdAt < (freshRefreshRec cfg userId newTokenId now).createdAt))
          = true := by
        have h2 : (freshRefreshRec cfg userId newTokenId now).userId = userId := rfl
        have h3 : (freshRefreshRec cfg userId newTokenId now).revoked = false := rfl
        have h4 : (freshRefreshRec cfg userId newTokenId now).createdAt = now := rfl
        rw [h2, h3, h4]
        simp [hnotin, hage]
      have hrest : (db.refreshTokens.map
          (fun r => if r.id = oldTokenId then { r with revoked := true } else r)).filter
          (fun r => decide (r ∉ db.refreshTokens) && decide (r.userId = userId) &&
            !r.revoked && decide (oldRec.createdAt < r.createdAt)) = [] := by
        apply List.filter_eq_nil_iff.mpr
        intro a ha
        obtain ⟨r0, hr0, hr0eq⟩ := List.mem_map.mp ha
        by_cases h0 : r0.id = oldTokenId
        · rw [if_pos h0] at hr0eq
          subst hr0eq
          simp
        · rw [if_neg h0] at hr0eq
          subst hr0eq
          simp [hr0]
      have h2 : (freshRefreshRec cfg userId newTokenId now).userId = userId := rfl
      have h3 : (freshRefreshRec cfg userId newTokenId now).revoked = false := rfl
      have h4 : (freshRefreshRec cfg userId newTokenId now).createdAt = now := rfl
      rw [List.filter_cons]
      simp only [decide_not] at hrest
      simp [hrest, hnotin, hage, h2, h3, h4]

/-- Witness for C1: a concrete successful rotation of an 8-day-old token. -/
theorem rotate_revokes_then_issues_exactly_one_witness :
    (∀ r ∈ dbRot.refreshTokens, r.id = "rt1" → r.revoked = true) ∧
    { rtW with revoked := true } ∈ dbRot.refreshTokens ∧
    dbRot.refreshTokens.filter (fun r => decide (r ∉ dbW.refreshTokens) &&
        decide (r.userId = "u1") && !r.revoked && decide (rtW.createdAt < r.createdAt))
      = [freshRefreshRec cfgW "u1" "rt9" tRot] ∧
    ([StoreOp.revokeToken "rt1", StoreOp.insertToken (freshRefreshRec cfgW "u1" "rt9" tRot)]
      : List StoreOp)
      = [.revokeToken "rt1", .insertToken (freshRefreshRec cfgW "u1" "rt9" tRot)] :=
  rotate_revokes_then_issues_exactly_one cfgW dbW "rt1" "u1" "rt9" tRot
    (refreshJwt cfgW "u1" "rt9" tRot) (tRot + 30 * msPerDay) dbRot
    [.revokeToken "rt1", .insertToken (freshRefreshRec cfgW "u1" "rt9" tRot)] rtW
    (by decide) (by decide) (by decide)
